import Mathlib

/-!
# Verification of the tana-edge capability bridge

Shallow embedding of the host-side capability operations of
`src/tana-edge/src/main.rs`: the staged key-value store
(`op_data_set`, `op_data_get`, `op_data_delete`, `op_data_has`,
`op_data_keys`, `op_data_clear`, `op_data_commit`), the gas-metered
transaction ledger (`op_tx_get_changes`, `op_tx_execute`), the
egress allowlist check of `op_fetch`, the batch blockchain queries
(`op_block_get_balance`, `op_block_get_user`, `op_block_get_transaction`),
and the entry-point dispatch of `run_contract`.

Conventions of the embedding:
* Rust `HashMap<String, V>` globals are modelled as association lists
  with distinct keys (`List (String × V)`); the `Option<HashMap<..>>`
  lazy-initialisation wrapper is dropped, `None` being observationally
  equal to the empty map in every operation.
* Rust `str::len` (UTF-8 byte count) is modelled by `rustLen`,
  `str::ends_with` by `rustEndsWith`.
* `u64`/`usize` quantities are modelled as `Nat` (all arithmetic in the
  embedded code is addition and multiplication of small bounded values,
  far from 2^64, and the gas counter is kept ≤ 10^6 by the code itself).
* Fallible ops returning `Result<T, JsErrorBox>` become `Except String T`,
  the error carrying the formatted message.
-/

namespace TanaEdge

/-! ## Process-level constants (src/tana-edge/src/main.rs lines 33-49) -/

def MAX_KEY_SIZE : Nat := 256

def MAX_VALUE_SIZE : Nat := 10240

def MAX_TOTAL_SIZE : Nat := 102400

def MAX_KEYS : Nat := 1000

def MAX_BATCH_QUERY : Nat := 10

def MOCK_GAS_LIMIT : Nat := 1000000

/-! ## Rust string primitives -/

/-- Rust `str::len`: the number of UTF-8 bytes of the string. -/
def rustLen (s : String) : Nat := (s.data.map Char.utf8Size).sum

/-- Rust `str::ends_with`: byte-suffix test, equivalently (since UTF-8 is
self-synchronising on character boundaries) a character-suffix test. -/
def rustEndsWith (s pat : String) : Bool := pat.data.isSuffixOf s.data

/-! ## Association-list model of `HashMap` -/

/-- `HashMap::get`. -/
def alLookup {α : Type} : List (String × α) → String → Option α
  | [], _ => none
  | (k', v) :: t, k => if k = k' then some v else alLookup t k

/-- `HashMap::contains_key`. -/
def alContains {α : Type} (l : List (String × α)) (k : String) : Bool :=
  (alLookup l k).isSome

/-- `HashMap::insert` (replaces any existing binding of the key). -/
def alInsert {α : Type} (l : List (String × α)) (k : String) (v : α) :
    List (String × α) :=
  (k, v) :: l.filter (fun p => p.1 != k)

/-- `HashMap::remove`. -/
def alErase {α : Type} (l : List (String × α)) (k : String) :
    List (String × α) :=
  l.filter (fun p => p.1 != k)

/-- The hash-map invariant: bindings have pairwise distinct keys. -/
def alKeysNodup {α : Type} (l : List (String × α)) : Prop :=
  (l.map Prod.fst).Nodup

/-! ## Staged store state

`STORAGE : HashMap<String, String>` (committed) and
`STAGING : HashMap<String, Option<String>>` (`Some` = pending write,
`None` = pending delete), main.rs lines 26-30. -/

structure Store where
  committed : List (String × String)
  staging : List (String × Option String)
deriving DecidableEq

/-! ## Staged store operations (main.rs lines 111-323) -/

/-- `op_data_set` (lines 111-140): validate key and value sizes, then
stage the write. -/
def op_data_set (st : Store) (key value : String) : Except String Store :=
  if rustLen key > MAX_KEY_SIZE then
    Except.error s!"Key too large: {rustLen key} bytes (max {MAX_KEY_SIZE})"
  else if rustLen value > MAX_VALUE_SIZE then
    Except.error s!"Value too large: {rustLen value} bytes (max {MAX_VALUE_SIZE})"
  else
    Except.ok { st with staging := alInsert st.staging key (some value) }

/-- `op_data_get` (lines 142-160): staging shadows committed; a staged
binding (write or delete) is returned as-is, otherwise fall through. -/
def op_data_get (st : Store) (key : String) : Option String :=
  match alLookup st.staging key with
  | some stagedValue => stagedValue
  | none => alLookup st.committed key

/-- `op_data_delete` (lines 162-174): unconditionally stage a delete. -/
def op_data_delete (st : Store) (key : String) : Except String Store :=
  Except.ok { st with staging := alInsert st.staging key none }

/-- `op_data_has` (lines 176-193): staging shadows committed. -/
def op_data_has (st : Store) (key : String) : Bool :=
  match alLookup st.staging key with
  | some stagedValue => stagedValue.isSome
  | none => alContains st.committed key

/-- `HashSet::insert` on the key set accumulated by `op_data_keys`. -/
def hsInsert (s : List String) (k : String) : List String :=
  if k ∈ s then s else k :: s

/-- `HashSet::remove`. -/
def hsErase (s : List String) (k : String) : List String :=
  s.filter (fun x => x != k)

/-- The staging-delta loop of `op_data_keys` (lines 210-220): starting from
the committed key set, remove keys staged for delete and add keys staged
for write. -/
def applyStagingToKeySet (init : List String)
    (staging : List (String × Option String)) : List String :=
  staging.foldl
    (fun acc kv =>
      match kv.2 with
      | none => hsErase acc kv.1
      | some _ => hsInsert acc kv.1)
    init

/-! ### The pattern language of `op_data_keys`

The source translates the glob pattern by `pattern.replace("*", ".*")`,
anchors it as `^…$` and hands it to the `regex` crate (lines 225-230).
Characters other than `*` therefore keep their regular-expression
meaning; under the crate's default flags `.` — and hence the `.*` a `*`
becomes — matches any character except `'\n'`, and `^`/`$` anchor at
the start/end of the whole key.  The embedding models the resulting
anchored match by `gmatch` over a token list: faithful to the `regex`
crate exactly for patterns whose characters are regex-literal
characters, `.` or `*` (predicate `modelledPattern`); patterns using
further metacharacters (`+`, `(`, `[`, …) are outside the model and
outside every theorem below. -/

inductive GTok where
  | lit (c : Char)
  | anyChar
  | anyStar
deriving DecidableEq

/-- Translation of one pattern character after `replace("*", ".*")`:
`*` became `.*` (match any sequence), `.` is the regex any-character,
anything else (restricted to `modelledPattern` inputs) is a literal. -/
def translateTok (c : Char) : GTok :=
  if c = '*' then GTok.anyStar else if c = '.' then GTok.anyChar else GTok.lit c

def translateGlob (p : String) : List GTok := p.data.map translateTok

/-- `.*`-matching: does `f` accept some suffix reachable by consuming
non-newline characters?  The `regex` crate's `.` — and hence the `.*`
a `*` becomes — matches any character *except* `'\n'` under the default
flags, so `.*` cannot consume past a newline. -/
def gstar (f : List Char → Bool) : List Char → Bool
  | [] => f []
  | x :: xs => f (x :: xs) || (!(x == '\n') && gstar f xs)

/-- Anchored (full-string) regular match of the translated pattern.
`anyChar` (the crate's `.`) matches any single character except
newline. -/
def gmatch : List GTok → List Char → Bool
  | [], s => s.isEmpty
  | GTok.lit c :: ts, s =>
      match s with
      | [] => false
      | x :: xs => c == x && gmatch ts xs
  | GTok.anyChar :: ts, s =>
      match s with
      | [] => false
      | x :: xs => !(x == '\n') && gmatch ts xs
  | GTok.anyStar :: ts, s => gstar (gmatch ts) s

/-- Pattern characters for which `gmatch ∘ translateGlob` agrees with the
`regex` crate: alphanumerics and a few punctuation characters that are
regex literals, plus the modelled metacharacters `*` and `.`. -/
def plainChar (c : Char) : Bool :=
  c.isAlphanum || c == '_' || c == '-' || c == '/' || c == ':' || c == ' ' || c == ','

def modelledPattern (p : String) : Bool :=
  p.data.all (fun c => plainChar c || c == '*' || c == '.')

/-- Unrestricted `*`-matching for the claim-side glob: does `f` accept
some suffix of the input?  (The claim's `*` matches *any* character
sequence, newlines included.) -/
def litStar (f : List Char → Bool) : List Char → Bool
  | [] => f []
  | x :: xs => f (x :: xs) || litStar f xs

/-- From the claim's words, for comparison with `gmatch`: a glob in which
`*` matches any character sequence and every other character — including
regular-expression metacharacters such as `.` or `+` — matches only
itself, over the full key. -/
def litGlobMatch : List Char → List Char → Bool
  | [], s => s.isEmpty
  | '*' :: ps, s => litStar (litGlobMatch ps) s
  | p :: ps, s =>
      match s with
      | [] => false
      | x :: xs => p == x && litGlobMatch ps xs

/-- `op_data_keys` (lines 195-234): committed key set, staging deltas,
optional pattern filter, lexicographic sort. -/
def op_data_keys (st : Store) (pattern : Option String) : List String :=
  let allKeys := applyStagingToKeySet (st.committed.map Prod.fst) st.staging
  let filtered :=
    match pattern with
    | some p => allKeys.filter (fun (k : String) => gmatch (translateGlob p) k.data)
    | none => allKeys
  filtered.mergeSort (fun a b => a ≤ b)

/-- `op_data_clear` (lines 236-251): clear both the committed map and the
staging map; infallible. -/
def op_data_clear (_st : Store) : Except String Store :=
  Except.ok { committed := [], staging := [] }

/-- `stage.get(key).map_or(false, |v| v.is_none())` (line 274): is the key
staged for deletion? -/
def stagedDelete (staging : List (String × Option String)) (k : String) : Bool :=
  match alLookup staging k with
  | some none => true
  | _ => false

/-- The two accumulation loops of `op_data_commit` (lines 263-289):
first over committed entries not staged for delete, then over staged
writes; returns `(total_size, total_keys)`.  Note the committed loop
does **not** skip keys staged for overwrite, so such a key's old value
is counted in addition to its staged new value. -/
def commitTotals (st : Store) : Nat × Nat :=
  let afterStore :=
    st.committed.foldl
      (fun acc kv =>
        if stagedDelete st.staging kv.1 then acc
        else (acc.1 + rustLen kv.1 + rustLen kv.2, acc.2 + 1))
      (0, 0)
  st.staging.foldl
    (fun acc kv =>
      match kv.2 with
      | some v =>
          (acc.1 + rustLen kv.1 + rustLen v,
           if alContains st.committed kv.1 then acc.2 else acc.2 + 1)
      | none => acc)
    afterStore

/-- The commit loop of `op_data_commit` (lines 307-313): apply staged
writes and deletes to the committed map. -/
def applyStaging (committed : List (String × String))
    (staging : List (String × Option String)) : List (String × String) :=
  staging.foldl
    (fun store kv =>
      match kv.2 with
      | some v => alInsert store kv.1 v
      | none => alErase store kv.1)
    committed

/-- `op_data_commit` (lines 253-323): compute the totals, validate both
limits, then apply staging to committed and clear staging. -/
def op_data_commit (st : Store) : Except String Store :=
  let t := commitTotals st
  if t.1 > MAX_TOTAL_SIZE then
    Except.error s!"Storage limit exceeded: {t.1} bytes (max {MAX_TOTAL_SIZE})"
  else if t.2 > MAX_KEYS then
    Except.error s!"Too many keys: {t.2} (max {MAX_KEYS})"
  else
    Except.ok { committed := applyStaging st.committed st.staging, staging := [] }

/-! ### Merged-state totals, from the specification's words

The spec demands the commit limits be checked "on the resulting merged
state … sum of key+value lengths over all live keys".  These two
definitions follow the spec's words, for comparison with the totals the
code actually computes. -/

/-- Merged post-commit entries: committed with staged writes applied and
staged deletes removed. -/
def spec_mergedEntries (st : Store) : List (String × String) :=
  applyStaging st.committed st.staging

/-- Spec-side total byte size of the merged state. -/
def spec_mergedSize (st : Store) : Nat :=
  ((spec_mergedEntries st).map (fun kv => rustLen kv.1 + rustLen kv.2)).sum

/-- Spec-side live key count of the merged state. -/
def spec_mergedKeyCount (st : Store) : Nat :=
  (spec_mergedEntries st).length

/-- A string of `n` copies of `'a'` (one UTF-8 byte each); used to build
the concrete store on which `op_data_commit` contradicts the spec. -/
def bigA (n : Nat) : String := String.mk (List.replicate n 'a')

/-- The store exhibiting the commit double-count: the single committed
key `"k"` holds a 60000-byte value and staging overwrites it with
another 60000-byte value.  Merged state: 1 key, 60001 bytes. -/
def overwriteStore : Store :=
  { committed := [("k", bigA 60000)], staging := [("k", some (bigA 60000))] }

/-! ## Structured JSON values

A minimal model of `serde_json::Value` for the values the embedded
operations construct and return without inspecting. Numbers occurring
in the modelled values are natural numbers (HTTP status codes). -/

inductive J where
  | jnull
  | jbool (b : Bool)
  | jnum (n : Nat)
  | jstr (s : String)
  | jarr (xs : List J)
  | jobj (fields : List (String × J))

/-! ## Transaction ledger (main.rs lines 39, 46, 595-652)

`TX_CHANGES : Option<Vec<serde_json::Value>>` is the pending-change
queue (`None` ≡ empty, as every op initialises it to `Some(vec![])`),
`MOCK_GAS_USED : u64` the cumulative gas counter.  The queued change
values are opaque to `op_tx_execute` and `op_tx_get_changes`, which
never inspect them. -/

structure TxState where
  changes : List J
  gasUsed : Nat

/-- The receipt object `op_tx_execute` returns,
`{success, changes, gasUsed, error}` (`error` is JSON `null` on
success). -/
structure ExecReceipt where
  success : Bool
  changes : List J
  gasUsed : Nat
  error : Option String

/-- `op_tx_get_changes` (lines 595-604): read-only snapshot of the
queue. -/
def op_tx_get_changes (st : TxState) : List J := st.changes

/-- `op_tx_execute` (lines 606-652): cost = 100 per queued change; on
`GasUsed + cost > GasLimit` clear the queue, leave the counter, and
report `Out of gas` with `gasUsed = GasLimit`; otherwise commit the
cost, clear the queue and return the batch. -/
def op_tx_execute (st : TxState) : ExecReceipt × TxState :=
  let changes := st.changes
  let gas_used := 100 * changes.length
  let new_gas_total := st.gasUsed + gas_used
  if new_gas_total > MOCK_GAS_LIMIT then
    ({ success := false, changes := [], gasUsed := MOCK_GAS_LIMIT,
       error := some "Out of gas" },
     { changes := [], gasUsed := st.gasUsed })
  else
    ({ success := true, changes := changes, gasUsed := gas_used, error := none },
     { changes := [], gasUsed := new_gas_total })

/-! ## Egress allowlist (main.rs lines 64-107) -/

def ALLOWED_DOMAINS : List String :=
  ["pokeapi.co", "tana.dev", "api.tana.dev", "blockchain.tana.dev",
   "localhost", "127.0.0.1"]

/-- The allowlist test of `op_fetch` (lines 84-86): the hostname equals
an entry or ends with `"." ++ entry`. -/
def isAllowedHost (hostname : String) : Bool :=
  ALLOWED_DOMAINS.any
    (fun domain => hostname == domain || rustEndsWith hostname ("." ++ domain))

/-- The blocked-fetch error message (lines 89-96). -/
def fetchBlockedMsg (hostname : String) : String :=
  "fetch blocked: domain \"" ++ hostname ++
    "\" not in whitelist. Allowed domains: " ++
    String.intercalate ", " ALLOWED_DOMAINS

/-- The gating step of `op_fetch` after hostname extraction: pass iff the
allowlist test succeeds, otherwise the structured error.  (URL parsing
and the network request itself are outside the embedding; the claim
conditions on a URL whose parsed hostname exists.) -/
def op_fetch_gate (hostname : String) : Except String Unit :=
  if isAllowedHost hostname then Except.ok ()
  else Except.error (fetchBlockedMsg hostname)

/-! ## Batch blockchain queries (main.rs lines 382-534)

The three ops share the input-parsing, batch-limit and shape logic that
the claims are about.  The network fetch of the ledger API is modelled
by passing the fetched collection (`users`, `balances`, `transactions`)
as an explicit argument; the records expose the fields the ops match on,
with the rest of each JSON object held opaquely in `payload`.  The
`f64` amounts of `op_block_get_balance` are modelled as `Rat` (the op
only moves them, defaulting missing ones to `0.0`). -/

/-- The `serde_json::Value` argument as the ops see it: a string, an
array, or anything else (rejected with `TypeError`). -/
inductive JsonIn where
  | jstr (s : String)
  | jarr (elems : List JsonIn)
  | jother

/-- `serde_json::Value::as_str`. -/
def JsonIn.asStr : JsonIn → Option String
  | JsonIn.jstr s => some s
  | _ => none

/-- The shared input parse (e.g. lines 389-397): a string becomes a
one-element id list; an array keeps exactly its string elements;
anything else is a type error. -/
def parseIds : JsonIn → Option (List String)
  | JsonIn.jstr s => some [s]
  | JsonIn.jarr a => some (a.filterMap JsonIn.asStr)
  | JsonIn.jother => none

/-- A user object of the ledger's `/users` response. -/
structure UserRec where
  id : Option String
  username : Option String
  payload : String
deriving DecidableEq

/-- A balance object of the ledger's `/balances` response; `amount` is
the value of `.get("amount").and_then(as_str).and_then(parse::<f64>)`. -/
structure BalanceRec where
  ownerId : Option String
  currencyCode : Option String
  amount : Option Rat
deriving DecidableEq

/-- A transaction object of the ledger's `/transactions` response. -/
structure TxRec where
  id : Option String
  payload : String
deriving DecidableEq

/-- Result shape shared by the three batch ops: a bare value for a
single query, a sequence otherwise. -/
inductive BatchOut (β : Type) where
  | single (b : β)
  | seq (bs : List β)
deriving DecidableEq

/-- The per-id lookup of `op_block_get_user` (lines 471-478): find by
`id` or `username`. -/
def findUser (users : List UserRec) (uid : String) : Option UserRec :=
  users.find? (fun u => u.id == some uid || u.username == some uid)

/-- The per-id lookup of `op_block_get_balance` (lines 417-427): find by
owner and currency, defaulting to `0.0`. -/
def findBalance (balances : List BalanceRec) (currency : String)
    (uid : String) : Rat :=
  (((balances.find?
      (fun b => b.ownerId == some uid && b.currencyCode == some currency)).bind
    BalanceRec.amount).getD 0)

/-- The per-id lookup of `op_block_get_transaction` (lines 522-526). -/
def findTx (txs : List TxRec) (tid : String) : Option TxRec :=
  txs.find? (fun t => t.id == some tid)

/-- `op_block_get_user` (lines 437-486). -/
def op_block_get_user (users : List UserRec) (user_ids : JsonIn) :
    Except String (BatchOut (Option UserRec)) :=
  match parseIds user_ids with
  | none => Except.error "Invalid user_ids"
  | some ids =>
    if ids.length > MAX_BATCH_QUERY then
      Except.error s!"Cannot query more than {MAX_BATCH_QUERY} users at once"
    else
      let results := ids.map (findUser users)
      if ids.length == 1 then Except.ok (BatchOut.single (results.headD none))
      else Except.ok (BatchOut.seq results)

/-- `op_block_get_balance` (lines 382-435). -/
def op_block_get_balance (balances : List BalanceRec) (user_ids : JsonIn)
    (currency_code : String) : Except String (BatchOut Rat) :=
  match parseIds user_ids with
  | none => Except.error "Invalid user_ids"
  | some ids =>
    if ids.length > MAX_BATCH_QUERY then
      Except.error s!"Cannot query more than {MAX_BATCH_QUERY} balances at once"
    else
      let results := ids.map (findBalance balances currency_code)
      if ids.length == 1 then Except.ok (BatchOut.single (results.headD 0))
      else Except.ok (BatchOut.seq results)

/-- `op_block_get_transaction` (lines 488-534). -/
def op_block_get_transaction (txs : List TxRec) (tx_ids : JsonIn) :
    Except String (BatchOut (Option TxRec)) :=
  match parseIds tx_ids with
  | none => Except.error "Invalid tx_ids"
  | some ids =>
    if ids.length > MAX_BATCH_QUERY then
      Except.error s!"Cannot query more than {MAX_BATCH_QUERY} transactions at once"
    else
      let results := ids.map (findTx txs)
      if ids.length == 1 then Except.ok (BatchOut.single (results.headD none))
      else Except.ok (BatchOut.seq results)

/-! ## Entry-point dispatch of `run_contract` (main.rs lines 1324-1430)

The runner script generated by `run_contract` tests the exported
functions of the loaded contract file in a fixed order:
`typeof Get === 'function'` first, then `typeof Post`, else the fixed
500 response — the inbound HTTP method is not an input of this test
(it only selects which contract file `execute_contract_with_body`
loads: `{get|post}.{js|ts}`). -/

/-- Which of the two conventional entry points the loaded contract file
exports. -/
structure ContractExports where
  hasGet : Bool
  hasPost : Bool
deriving DecidableEq

inductive EntryCall where
  | callGet
  | callPost
  | noEntry
deriving DecidableEq

/-- The runner's dispatch chain (lines 1354-1368 and identically
1410-1424): `Get` first, then `Post`, else no entry point. -/
def runnerDispatch (e : ContractExports) : EntryCall :=
  if e.hasGet then EntryCall.callGet
  else if e.hasPost then EntryCall.callPost
  else EntryCall.noEntry

/-- The fixed structured error response of the runner
(lines 1367 and 1423). -/
def noEntryResponse : J :=
  J.jobj [("status", J.jnum 500),
          ("body", J.jobj [("error", J.jstr "No Get or Post function exported")])]

/-- The value `__contractResult` is assigned: the result of the invoked
entry point, or the fixed 500 response. `getResult`/`postResult` stand
for whatever the contract's `Get`/`Post` return. -/
def runnerResult (e : ContractExports) (getResult postResult : J) : J :=
  match runnerDispatch e with
  | EntryCall.callGet => getResult
  | EntryCall.callPost => postResult
  | EntryCall.noEntry => noEntryResponse

/-- A concrete user record, used for evaluating the batch queries on
concrete inputs. -/
def aliceRec : UserRec :=
  { id := some "alice", username := some "alice", payload := "" }

/-! # Theorems -/

/-! ## Supporting lemmas about the association-list and key-set model -/

theorem alLookup_alInsert_self {α : Type} (l : List (String × α)) (k : String)
    (v : α) : alLookup (alInsert l k v) k = some v := by
  simp [alInsert, alLookup]

theorem alLookup_eq_none_iff {α : Type} (l : List (String × α)) (k : String) :
    alLookup l k = none ↔ k ∉ l.map Prod.fst := by
  induction l with
  | nil => simp [alLookup]
  | cons hd t ih =>
    obtain ⟨k', v⟩ := hd
    by_cases hk : k = k' <;> simp [alLookup, hk, ih]

theorem rustLen_bigA (n : Nat) : rustLen (bigA n) = n := by
  have h1 : Char.utf8Size 'a' = 1 := rfl
  simp [rustLen, bigA, List.map_replicate, h1, List.sum_replicate]

/-! ## C7 -/

/-- C7: for every key and store state, `get` and `has` resolve staging
over committed storage: a staged write is returned and `has` is true, a
staged delete yields an empty `get` and `has` false even when committed
storage holds the key, and only a key absent from staging falls through
to committed storage. -/
theorem c7_staging_shadows_committed (st : Store) (k v : String) :
    (alLookup st.staging k = some (some v) →
      op_data_get st k = some v ∧ op_data_has st k = true) ∧
    (alLookup st.staging k = some none →
      op_data_get st k = none ∧ op_data_has st k = false) ∧
    (alLookup st.staging k = none →
      op_data_get st k = alLookup st.committed k ∧
      op_data_has st k = (alLookup st.committed k).isSome) := by
  refine ⟨fun h => ?_, fun h => ?_, fun h => ?_⟩ <;>
    simp [op_data_get, op_data_has, alContains, h]

/-- Witness for C7: a committed key with a staged delete reads as absent. -/
theorem c7_staging_shadows_committed_witness :
    op_data_get { committed := [("a", "1")], staging := [("a", none)] } "a" = none ∧
    op_data_has { committed := [("a", "1")], staging := [("a", none)] } "a" = false :=
  (c7_staging_shadows_committed
      { committed := [("a", "1")], staging := [("a", none)] } "a" "1").2.1 (by decide)

/-! ## C8 -/

/-- C8: `clear` unconditionally empties both the committed map and the
staging map and never fails; afterwards every `get` is empty and every
`has` is false. -/
theorem c8_clear_discards_committed (st : Store) (k : String) :
    op_data_clear st = Except.ok { committed := [], staging := [] } ∧
    op_data_get { committed := [], staging := [] } k = none ∧
    op_data_has { committed := [], staging := [] } k = false :=
  ⟨rfl, rfl, rfl⟩

/-! ## C9 -/

/-- C9: `delete` always succeeds and performs no size validation — any
key, including one longer than `MAX_KEY_SIZE` (which `set` rejects) and
one absent from both layers, is staged as a pending delete, after which
`has` is false. -/
theorem c9_delete_unvalidated (st : Store) (k v : String) :
    op_data_delete st k =
      Except.ok { st with staging := alInsert st.staging k none } ∧
    op_data_has { st with staging := alInsert st.staging k none } k = false ∧
    (rustLen k > MAX_KEY_SIZE → ∃ msg, op_data_set st k v = Except.error msg) := by
  refine ⟨rfl, ?_, fun h => ?_⟩
  · simp [op_data_has, alLookup_alInsert_self]
  · refine ⟨s!"Key too large: {rustLen k} bytes (max {MAX_KEY_SIZE})", ?_⟩
    unfold op_data_set
    rw [if_pos h]

/-- Witness for C9: a 257-byte key, absent from the empty store, is
staged for delete without error while `set` rejects it. -/
theorem c9_delete_unvalidated_witness :
    op_data_delete { committed := [], staging := [] } (bigA 257) =
      Except.ok { committed := [], staging := alInsert [] (bigA 257) none } ∧
    op_data_has { committed := [], staging := alInsert [] (bigA 257) none }
      (bigA 257) = false ∧
    (∃ msg, op_data_set { committed := [], staging := [] } (bigA 257) "v" =
      Except.error msg) := by
  have h := c9_delete_unvalidated { committed := [], staging := [] } (bigA 257) "v"
  exact ⟨h.1, h.2.1, h.2.2 (by rw [GT.gt, rustLen_bigA]; decide)⟩

/-! ## C5 -/

/-- C5: `execute` is atomic over the pending queue: with
cost = 100 × queue length, exceeding the gas limit returns exactly the
fixed out-of-gas receipt (`gasUsed` reported as the limit), leaves the
counter untouched and clears the queue; otherwise the cost is committed,
the receipt carries the full change list in order and the batch's own
cost, and the queue is cleared — either way a subsequent `getChanges`
returns the empty sequence. -/
theorem c5_execute_atomic (st : TxState) :
    (st.gasUsed + 100 * st.changes.length > MOCK_GAS_LIMIT →
      (op_tx_execute st).1 =
        { success := false, changes := [], gasUsed := MOCK_GAS_LIMIT,
          error := some "Out of gas" } ∧
      (op_tx_execute st).2.gasUsed = st.gasUsed ∧
      op_tx_get_changes (op_tx_execute st).2 = []) ∧
    (st.gasUsed + 100 * st.changes.length ≤ MOCK_GAS_LIMIT →
      (op_tx_execute st).1 =
        { success := true, changes := st.changes,
          gasUsed := 100 * st.changes.length, error := none } ∧
      (op_tx_execute st).2.gasUsed = st.gasUsed + 100 * st.changes.length ∧
      op_tx_get_changes (op_tx_execute st).2 = []) := by
  unfold op_tx_execute op_tx_get_changes
  constructor
  · intro h
    simp [h]
  · intro h
    simp [Nat.not_lt.mpr h]

/-- Witness for C5 (the gas-rollback scenario of the spec): gas counter
within 100 of the limit and two queued changes. -/
theorem c5_execute_atomic_witness :
    (op_tx_execute { changes := [J.jnull, J.jnull], gasUsed := 999950 }).1 =
      { success := false, changes := [], gasUsed := MOCK_GAS_LIMIT,
        error := some "Out of gas" } ∧
    (op_tx_execute { changes := [J.jnull, J.jnull], gasUsed := 999950 }).2.gasUsed =
      999950 ∧
    op_tx_get_changes
      (op_tx_execute { changes := [J.jnull, J.jnull], gasUsed := 999950 }).2 = [] :=
  (c5_execute_atomic { changes := [J.jnull, J.jnull], gasUsed := 999950 }).1
    (by decide)

/-- The ledger invariant justifying C10's hypothesis: `execute` keeps the
cumulative counter within the gas limit (it starts at 0 and is only ever
raised to a checked total). -/
theorem op_tx_execute_preserves_gas_bound (st : TxState)
    (h : st.gasUsed ≤ MOCK_GAS_LIMIT) :
    (op_tx_execute st).2.gasUsed ≤ MOCK_GAS_LIMIT := by
  unfold op_tx_execute
  by_cases hc : st.gasUsed + 100 * st.changes.length > MOCK_GAS_LIMIT
  · simpa [hc] using h
  · simpa [hc] using Nat.not_lt.mp hc

/-! ## C10 -/

/-- C10: `execute` on an empty queue returns
`{success:true, changes:[], gasUsed:0, error:null}` and leaves the
counter unchanged — also at the boundary `GasUsed = GasLimit`, since the
out-of-gas comparison `GasUsed + 0 > GasLimit` is strict.  The gas
counter is quantified over the values reachable under the ledger
invariant `GasUsed ≤ GasLimit` (`op_tx_execute_preserves_gas_bound`). -/
theorem c10_execute_empty_queue (g : Nat) (hg : g ≤ MOCK_GAS_LIMIT) :
    op_tx_execute { changes := [], gasUsed := g } =
      ({ success := true, changes := [], gasUsed := 0, error := none },
       { changes := [], gasUsed := g }) := by
  unfold op_tx_execute
  simp [Nat.not_lt.mpr hg]

/-- Witness for C10 at the exact boundary `GasUsed = GasLimit`. -/
theorem c10_execute_empty_queue_witness :
    op_tx_execute { changes := [], gasUsed := MOCK_GAS_LIMIT } =
      ({ success := true, changes := [], gasUsed := 0, error := none },
       { changes := [], gasUsed := MOCK_GAS_LIMIT }) :=
  c10_execute_empty_queue MOCK_GAS_LIMIT (Nat.le_refl _)

/-! ## C1 -/

/-- Counterexample to C1: the runner's dispatch does not consult the
inbound method; with only `Get` exported (the claim's POST-invocation
scenario) the runner invokes `Get` and returns its result, not the fixed
500 response the claim requires. -/
theorem c1_dispatch_counterexample :
    runnerDispatch { hasGet := true, hasPost := false } = EntryCall.callGet ∧
    runnerResult { hasGet := true, hasPost := false }
        (J.jobj [("status", J.jnum 200)]) J.jnull =
      J.jobj [("status", J.jnum 200)] ∧
    J.jobj [("status", J.jnum 200)] ≠ noEntryResponse := by
  refine ⟨rfl, rfl, fun h => ?_⟩
  simp [noEntryResponse] at h

/-- C1 as amended: the runner invokes `Get` whenever the loaded contract
file exports it (for any inbound method), otherwise `Post` when
exported, and returns the fixed
`{status:500, body:{error:"No Get or Post function exported"}}` response
exactly when neither entry point is exported; the inbound method only
selects which contract file is loaded. -/
theorem c1_dispatch_amended (e : ContractExports) (g p : J) :
    (e.hasGet = true → runnerResult e g p = g) ∧
    (e.hasGet = false → e.hasPost = true → runnerResult e g p = p) ∧
    (e.hasGet = false → e.hasPost = false →
      runnerResult e g p =
        J.jobj [("status", J.jnum 500),
                ("body", J.jobj [("error",
                  J.jstr "No Get or Post function exported")])]) ∧
    (runnerDispatch e = EntryCall.noEntry ↔
      e.hasGet = false ∧ e.hasPost = false) := by
  obtain ⟨hg, hp⟩ := e
  cases hg <;> cases hp <;>
    simp [runnerResult, runnerDispatch, noEntryResponse]

/-- Witness for C1's amended theorem: a Post-only contract file has its
`Post` invoked. -/
theorem c1_dispatch_amended_witness :
    runnerResult { hasGet := false, hasPost := true } J.jnull (J.jstr "post") =
      J.jstr "post" :=
  (c1_dispatch_amended { hasGet := false, hasPost := true }
    J.jnull (J.jstr "post")).2.1 rfl rfl

/-! ## C6 -/

/-- Rust's `ends_with` as an existential decomposition. -/
theorem rustEndsWith_iff (s pat : String) :
    rustEndsWith s pat = true ↔ ∃ p, s = p ++ pat := by
  unfold rustEndsWith
  rw [List.isSuffixOf_iff_suffix]
  constructor
  · rintro ⟨t, ht⟩
    refine ⟨String.mk t, String.ext ?_⟩
    simpa using ht.symm
  · rintro ⟨p, hp⟩
    exact ⟨p.data, by simp [hp]⟩

/-- A string equal to `a ++ (c1 ++ d ++ c2)` exposes `d` between a
concrete pair of flanking strings. -/
theorem append_expose_middle (a c c1 c2 d : String) (hc : c = c1 ++ d ++ c2) :
    ∃ p q, a ++ c = p ++ d ++ q :=
  ⟨a ++ c1, c2, String.ext (by simp [hc, List.append_assoc])⟩

/-- C6: the egress gate passes a hostname exactly when it equals an
allowlist entry or ends with `"."` followed by one; a blocked hostname
produces the error message that names it and enumerates every allowlist
entry. -/
theorem c6_allowlist_check (host : String) :
    (isAllowedHost host = true ↔
      ∃ d ∈ ALLOWED_DOMAINS, host = d ∨ ∃ p, host = p ++ "." ++ d) ∧
    (isAllowedHost host = true → op_fetch_gate host = Except.ok ()) ∧
    (isAllowedHost host = false →
      op_fetch_gate host = Except.error (fetchBlockedMsg host)) ∧
    (∃ p q, fetchBlockedMsg host = p ++ host ++ q) ∧
    (∀ d ∈ ALLOWED_DOMAINS, ∃ p q, fetchBlockedMsg host = p ++ d ++ q) := by
  refine ⟨?_, fun h => by simp [op_fetch_gate, h], fun h => by simp [op_fetch_gate, h], ?_, ?_⟩
  · unfold isAllowedHost
    rw [List.any_eq_true]
    constructor
    · rintro ⟨d, hd, hor⟩
      refine ⟨d, hd, ?_⟩
      rcases Bool.or_eq_true_iff.mp hor with heq | hend
      · exact Or.inl (by simpa using heq)
      · obtain ⟨p, hp⟩ := (rustEndsWith_iff host ("." ++ d)).mp hend
        exact Or.inr ⟨p, by rw [hp, String.append_assoc]⟩
    · rintro ⟨d, hd, hor⟩
      refine ⟨d, hd, Bool.or_eq_true_iff.mpr ?_⟩
      rcases hor with rfl | ⟨p, hp⟩
      · exact Or.inl (by simp)
      · refine Or.inr ((rustEndsWith_iff host ("." ++ d)).mpr ⟨p, ?_⟩)
        rw [hp, String.append_assoc]
  · exact ⟨"fetch blocked: domain \"",
      "\" not in whitelist. Allowed domains: " ++
        String.intercalate ", " ALLOWED_DOMAINS,
      String.ext (by simp [fetchBlockedMsg, List.append_assoc])⟩
  · intro d hd
    have hmsg : fetchBlockedMsg host =
        ("fetch blocked: domain \"" ++ host ++
          "\" not in whitelist. Allowed domains: ") ++
          String.intercalate ", " ALLOWED_DOMAINS :=
      String.ext (by simp [fetchBlockedMsg, List.append_assoc])
    rw [hmsg]
    fin_cases hd
    · exact append_expose_middle _ _ ""
        ", tana.dev, api.tana.dev, blockchain.tana.dev, localhost, 127.0.0.1"
        "pokeapi.co" (by decide)
    · exact append_expose_middle _ _ "pokeapi.co, "
        ", api.tana.dev, blockchain.tana.dev, localhost, 127.0.0.1"
        "tana.dev" (by decide)
    · exact append_expose_middle _ _ "pokeapi.co, tana.dev, "
        ", blockchain.tana.dev, localhost, 127.0.0.1"
        "api.tana.dev" (by decide)
    · exact append_expose_middle _ _ "pokeapi.co, tana.dev, api.tana.dev, "
        ", localhost, 127.0.0.1"
        "blockchain.tana.dev" (by decide)
    · exact append_expose_middle _ _
        "pokeapi.co, tana.dev, api.tana.dev, blockchain.tana.dev, "
        ", 127.0.0.1" "localhost" (by decide)
    · exact append_expose_middle _ _
        "pokeapi.co, tana.dev, api.tana.dev, blockchain.tana.dev, localhost, "
        "" "127.0.0.1" (by decide)

/-- Witness for C6: a subdomain of an allowlist entry passes, a foreign
domain is rejected with the structured message. -/
theorem c6_allowlist_check_witness :
    isAllowedHost "sub.tana.dev" = true ∧
    op_fetch_gate "evil.example.com" =
      Except.error (fetchBlockedMsg "evil.example.com") :=
  ⟨(c6_allowlist_check "sub.tana.dev").1.mpr
      ⟨"tana.dev", by decide, Or.inr ⟨"sub", by decide⟩⟩,
   (c6_allowlist_check "evil.example.com").2.2.1 (by decide)⟩

/-! ## C3 -/

/-- Parsing an array of JSON strings recovers exactly those strings. -/
theorem filterMap_asStr_jstr (elems : List String) :
    (elems.map JsonIn.jstr).filterMap JsonIn.asStr = elems := by
  induction elems with
  | nil => rfl
  | cons a t ih => simp [JsonIn.asStr, ih]

/-- Parsing an array built from JSON strings yields exactly them. -/
theorem parseIds_jstr_list (elems : List String) :
    parseIds (JsonIn.jarr (elems.map JsonIn.jstr)) = some elems := by
  simp only [parseIds]
  rw [filterMap_asStr_jstr]

/-- Counterexample to C3: a one-element sequence of ids does not return
a one-element sequence — the op collapses it to the bare single value,
breaking the claimed input/output shape symmetry. -/
theorem c3_batch_shape_counterexample :
    op_block_get_user [aliceRec] (JsonIn.jarr [JsonIn.jstr "alice"]) =
      Except.ok (BatchOut.single (some aliceRec)) ∧
    (BatchOut.single (some aliceRec) : BatchOut (Option UserRec)) ≠
      BatchOut.seq [some aliceRec] :=
  ⟨rfl, fun hEq => BatchOut.noConfusion hEq⟩

/-- C3 as amended: each batch query returns a bare single value for a
single id; a sequence of string ids of length ≤ 10 and ≠ 1 yields a
sequence of the same length in input order; a one-element sequence
collapses to the same bare-value shape as a single id; and a sequence
of more than 10 ids is a hard error. -/
theorem c3_batch_shape (users : List UserRec) (balances : List BalanceRec)
    (txs : List TxRec) (currency s : String) (elems : List String) :
    (op_block_get_user users (JsonIn.jstr s) =
      Except.ok (BatchOut.single (findUser users s))) ∧
    (elems.length > MAX_BATCH_QUERY →
      op_block_get_user users (JsonIn.jarr (elems.map JsonIn.jstr)) =
        Except.error "Cannot query more than 10 users at once") ∧
    (∀ x, elems = [x] →
      op_block_get_user users (JsonIn.jarr (elems.map JsonIn.jstr)) =
        Except.ok (BatchOut.single (findUser users x))) ∧
    (elems.length ≠ 1 → elems.length ≤ MAX_BATCH_QUERY →
      op_block_get_user users (JsonIn.jarr (elems.map JsonIn.jstr)) =
        Except.ok (BatchOut.seq (elems.map (findUser users)))) ∧
    (op_block_get_balance balances (JsonIn.jstr s) currency =
      Except.ok (BatchOut.single (findBalance balances currency s))) ∧
    (elems.length > MAX_BATCH_QUERY →
      op_block_get_balance balances (JsonIn.jarr (elems.map JsonIn.jstr)) currency =
        Except.error "Cannot query more than 10 balances at once") ∧
    (∀ x, elems = [x] →
      op_block_get_balance balances (JsonIn.jarr (elems.map JsonIn.jstr)) currency =
        Except.ok (BatchOut.single (findBalance balances currency x))) ∧
    (elems.length ≠ 1 → elems.length ≤ MAX_BATCH_QUERY →
      op_block_get_balance balances (JsonIn.jarr (elems.map JsonIn.jstr)) currency =
        Except.ok (BatchOut.seq (elems.map (findBalance balances currency)))) ∧
    (op_block_get_transaction txs (JsonIn.jstr s) =
      Except.ok (BatchOut.single (findTx txs s))) ∧
    (elems.length > MAX_BATCH_QUERY →
      op_block_get_transaction txs (JsonIn.jarr (elems.map JsonIn.jstr)) =
        Except.error "Cannot query more than 10 transactions at once") ∧
    (∀ x, elems = [x] →
      op_block_get_transaction txs (JsonIn.jarr (elems.map JsonIn.jstr)) =
        Except.ok (BatchOut.single (findTx txs x))) ∧
    (elems.length ≠ 1 → elems.length ≤ MAX_BATCH_QUERY →
      op_block_get_transaction txs (JsonIn.jarr (elems.map JsonIn.jstr)) =
        Except.ok (BatchOut.seq (elems.map (findTx txs)))) := by
  refine ⟨rfl, fun hlong => ?_, fun x hx => by subst hx; rfl, fun hne hle => ?_,
          rfl, fun hlong => ?_, fun x hx => by subst hx; rfl, fun hne hle => ?_,
          rfl, fun hlong => ?_, fun x hx => by subst hx; rfl, fun hne hle => ?_⟩
  · simp only [op_block_get_user, parseIds_jstr_list]
    rw [if_pos hlong]
    rfl
  · simp only [op_block_get_user, parseIds_jstr_list]
    rw [if_neg (Nat.not_lt.mpr hle), if_neg (by simpa using hne)]
  · simp only [op_block_get_balance, parseIds_jstr_list]
    rw [if_pos hlong]
    rfl
  · simp only [op_block_get_balance, parseIds_jstr_list]
    rw [if_neg (Nat.not_lt.mpr hle), if_neg (by simpa using hne)]
  · simp only [op_block_get_transaction, parseIds_jstr_list]
    rw [if_pos hlong]
    rfl
  · simp only [op_block_get_transaction, parseIds_jstr_list]
    rw [if_neg (Nat.not_lt.mpr hle), if_neg (by simpa using hne)]

/-- Witness for C3's amended theorem: a two-element id sequence returns
a two-element sequence in order; an 11-element sequence is a hard
error. -/
theorem c3_batch_shape_witness :
    op_block_get_user [aliceRec] (JsonIn.jarr [JsonIn.jstr "alice", JsonIn.jstr "bob"]) =
      Except.ok (BatchOut.seq [some aliceRec, none]) ∧
    op_block_get_user [aliceRec]
        (JsonIn.jarr ((List.replicate 11 "x").map JsonIn.jstr)) =
      Except.error "Cannot query more than 10 users at once" := by
  have h1 := (c3_batch_shape [aliceRec] [] [] "c" "s" ["alice", "bob"]).2.2.2.1
    (by decide) (by decide)
  have h2 := (c3_batch_shape [aliceRec] [] [] "c" "s" (List.replicate 11 "x")).2.1
    (by decide)
  exact ⟨h1, h2⟩

/-! ## C2 -/

/-- The totals `op_data_commit` computes for a single committed key
overwritten by staging: the key's old value and its staged new value
are both counted (symbolically, for any pair of values). -/
theorem commitTotals_overwrite (vOld vNew : String) :
    (commitTotals
      { committed := [("k", vOld)], staging := [("k", some vNew)] }).1 =
      2 + rustLen vOld + rustLen vNew ∧
    (commitTotals
      { committed := [("k", vOld)], staging := [("k", some vNew)] }).2 = 1 := by
  have hk : rustLen "k" = 1 := rfl
  refine ⟨?_, ?_⟩
  · simp [commitTotals, stagedDelete, alLookup, alContains, hk]
    omega
  · simp [commitTotals, stagedDelete, alLookup, alContains, hk]

/-- The merged post-commit state for that store: a single entry holding
the staged new value. -/
theorem spec_mergedEntries_overwrite (vOld vNew : String) :
    spec_mergedEntries
      { committed := [("k", vOld)], staging := [("k", some vNew)] } =
      [("k", vNew)] := by
  simp [spec_mergedEntries, applyStaging, alInsert, List.filter]

/-- Merged live key count of the overwrite store, symbolically. -/
theorem spec_mergedKeyCount_overwrite (vOld vNew : String) :
    spec_mergedKeyCount
      { committed := [("k", vOld)], staging := [("k", some vNew)] } = 1 := by
  unfold spec_mergedKeyCount
  rw [spec_mergedEntries_overwrite]
  rfl

/-- Merged byte size of the overwrite store, symbolically. -/
theorem spec_mergedSize_overwrite (vOld vNew : String) :
    spec_mergedSize
      { committed := [("k", vOld)], staging := [("k", some vNew)] } =
      1 + rustLen vNew := by
  have hk : rustLen "k" = 1 := rfl
  unfold spec_mergedSize
  rw [spec_mergedEntries_overwrite]
  simp [hk]

/-- C2, refuted by the code: on `overwriteStore` the merged post-commit
state has 1 live key and 60001 bytes — comfortably within `MAX_KEYS` and
`MAX_TOTAL_SIZE` — so the claim (and the spec, and the code's own
comment "Calculate total size after commit") requires `commit` to
succeed; the code instead counts the overwritten key's old value *and*
its staged new value, computes 120002 bytes, and rejects. -/
theorem c2_commit_double_counts_overwrite :
    spec_mergedKeyCount overwriteStore = 1 ∧
    spec_mergedSize overwriteStore = 60001 ∧
    spec_mergedSize overwriteStore ≤ MAX_TOTAL_SIZE ∧
    spec_mergedKeyCount overwriteStore ≤ MAX_KEYS ∧
    commitTotals overwriteStore = (120002, 1) ∧
    op_data_commit overwriteStore =
      Except.error "Storage limit exceeded: 120002 bytes (max 102400)" := by
  have hb : rustLen (bigA 60000) = 60000 := rustLen_bigA 60000
  have hcount : spec_mergedKeyCount overwriteStore = 1 :=
    spec_mergedKeyCount_overwrite (bigA 60000) (bigA 60000)
  have hsize : spec_mergedSize overwriteStore = 60001 := by
    have h := spec_mergedSize_overwrite (bigA 60000) (bigA 60000)
    rw [hb] at h
    exact h
  have h1 : (commitTotals overwriteStore).1 = 120002 := by
    have h := (commitTotals_overwrite (bigA 60000) (bigA 60000)).1
    rw [hb] at h
    exact h
  have h2 : (commitTotals overwriteStore).2 = 1 :=
    (commitTotals_overwrite (bigA 60000) (bigA 60000)).2
  have htot : commitTotals overwriteStore = (120002, 1) := by
    rw [Prod.ext_iff]
    exact ⟨h1, h2⟩
  refine ⟨hcount, hsize, by rw [hsize]; decide, by rw [hcount]; decide, htot, ?_⟩
  unfold op_data_commit
  rw [htot]
  rfl

/-! ## C4 -/

theorem mem_hsInsert (s : List String) (k x : String) :
    x ∈ hsInsert s k ↔ x = k ∨ x ∈ s := by
  unfold hsInsert
  by_cases h : k ∈ s
  · rw [if_pos h]
    exact ⟨Or.inr, fun hx => hx.elim (fun e => e ▸ h) id⟩
  · rw [if_neg h]
    simp

theorem mem_hsErase (s : List String) (k x : String) :
    x ∈ hsErase s k ↔ x ∈ s ∧ x ≠ k := by
  simp [hsErase, List.mem_filter]

theorem nodup_hsInsert (s : List String) (k : String) (h : s.Nodup) :
    (hsInsert s k).Nodup := by
  unfold hsInsert
  by_cases hk : k ∈ s
  · rwa [if_pos hk]
  · rw [if_neg hk]
    exact List.nodup_cons.mpr ⟨hk, h⟩

theorem nodup_hsErase (s : List String) (k : String) (h : s.Nodup) :
    (hsErase s k).Nodup :=
  h.filter _

/-- One step of the staging-delta fold. -/
theorem applyStagingToKeySet_cons (init : List String) (k : String)
    (v : Option String) (t : List (String × Option String)) :
    applyStagingToKeySet init ((k, v) :: t) =
      applyStagingToKeySet
        (match v with
         | none => hsErase init k
         | some _ => hsInsert init k)
        t := rfl

theorem nodup_applyStagingToKeySet (staging : List (String × Option String))
    (init : List String) (h : init.Nodup) :
    (applyStagingToKeySet init staging).Nodup := by
  induction staging generalizing init with
  | nil => exact h
  | cons hd t ih =>
    obtain ⟨k, v⟩ := hd
    rw [applyStagingToKeySet_cons]
    cases v with
    | none => exact ih (hsErase init k) (nodup_hsErase init k h)
    | some w => exact ih (hsInsert init k) (nodup_hsInsert init k h)

/-- Membership in the staging-delta fold: a key staged for write is in
the result, a key staged for delete is not, and an unstaged key is in
the result exactly when it was in the initial set. -/
theorem mem_applyStagingToKeySet (staging : List (String × Option String))
    (init : List String) (k : String) :
    alKeysNodup staging →
    (k ∈ applyStagingToKeySet init staging ↔
      (∃ w, alLookup staging k = some (some w)) ∨
      (alLookup staging k = none ∧ k ∈ init)) := by
  induction staging generalizing init with
  | nil =>
    intro _
    simp [applyStagingToKeySet, alLookup]
  | cons hd t ih =>
    intro hnd
    obtain ⟨k', v⟩ := hd
    have hnd2 : (k' :: t.map Prod.fst).Nodup := hnd
    have hk'notin : k' ∉ t.map Prod.fst := (List.nodup_cons.mp hnd2).1
    have hnd' : alKeysNodup t := (List.nodup_cons.mp hnd2).2
    rw [applyStagingToKeySet_cons]
    by_cases hkk : k = k'
    · subst hkk
      have hlt : alLookup t k = none := (alLookup_eq_none_iff t k).mpr hk'notin
      cases v with
      | none => simp [ih _ hnd', hlt, mem_hsErase, alLookup]
      | some w => simp [ih _ hnd', hlt, mem_hsInsert, alLookup]
    · cases v with
      | none => simp [ih _ hnd', mem_hsErase, alLookup, hkk]
      | some w => simp [ih _ hnd', mem_hsInsert, alLookup, hkk]

/-- `op_data_has` in the same normal form. -/
theorem op_data_has_true_iff (st : Store) (k : String) :
    op_data_has st k = true ↔
      (∃ w, alLookup st.staging k = some (some w)) ∨
      (alLookup st.staging k = none ∧ k ∈ st.committed.map Prod.fst) := by
  unfold op_data_has alContains
  cases hl : alLookup st.staging k with
  | none =>
    simp [Option.isSome_iff_ne_none, ne_eq, alLookup_eq_none_iff, not_not]
  | some w => cases w <;> simp

/-- Counterexample to C4: under the claim's glob semantics the pattern
`a.c` (the character `.` matching only itself) matches no live key of a
store whose only key is `abc`; the code's translation leaves `.` with
its regular-expression meaning, so `keys("a.c")` returns `["abc"]`. -/
theorem c4_keys_counterexample :
    "abc" ∈ op_data_keys { committed := [("abc", "v")], staging := [] }
      (some "a.c") ∧
    modelledPattern "a.c" = true ∧
    litGlobMatch "a.c".data "abc".data = false := by
  refine ⟨?_, by decide, by decide⟩
  unfold op_data_keys
  rw [List.mem_mergeSort, List.mem_filter]
  exact ⟨by decide, by decide⟩

/-- C4 as amended: `keys(pattern)` returns exactly the live keys
(committed minus staged deletes plus staged writes, i.e. those with
`has = true`) matched by the pattern translated as an anchored regular
expression in which `*` becomes `.*` and every other character keeps its
regular-expression meaning — `.`, and the `.*` a `*` becomes, match any
character except newline (the crate's default flags) — sorted
lexicographically without duplicates.  Scoped to patterns inside the
modelled regex fragment (`modelledPattern`). -/
theorem c4_keys_amended (st : Store) (p k : String)
    (hcnd : alKeysNodup st.committed) (hsnd : alKeysNodup st.staging)
    (_hp : modelledPattern p = true) :
    (k ∈ op_data_keys st (some p) ↔
      op_data_has st k = true ∧ gmatch (translateGlob p) k.data = true) ∧
    (op_data_keys st (some p)).Sorted (· ≤ ·) ∧
    (op_data_keys st (some p)).Nodup := by
  unfold op_data_keys
  refine ⟨?_, List.sorted_mergeSort' _, ?_⟩
  · rw [List.mem_mergeSort, List.mem_filter,
      mem_applyStagingToKeySet st.staging _ k hsnd, op_data_has_true_iff]
  · exact ((List.mergeSort_perm _ _).nodup_iff).mpr
      ((nodup_applyStagingToKeySet st.staging _ hcnd).filter _)

/-- Witness for C4's amended theorem on a concrete store: key `a1` is
live and matched by `a*`. -/
theorem c4_keys_amended_witness :
    ("a1" ∈ op_data_keys
        { committed := [("a1", "v"), ("b", "w")],
          staging := [("a2", some "x"), ("b", none)] } (some "a*") ↔
      op_data_has
        { committed := [("a1", "v"), ("b", "w")],
          staging := [("a2", some "x"), ("b", none)] } "a1" = true ∧
      gmatch (translateGlob "a*") "a1".data = true) ∧
    (op_data_keys
        { committed := [("a1", "v"), ("b", "w")],
          staging := [("a2", some "x"), ("b", none)] } (some "a*")).Sorted (· ≤ ·) ∧
    (op_data_keys
        { committed := [("a1", "v"), ("b", "w")],
          staging := [("a2", some "x"), ("b", none)] } (some "a*")).Nodup :=
  c4_keys_amended
    { committed := [("a1", "v"), ("b", "w")],
      staging := [("a2", some "x"), ("b", none)] }
    "a*" "a1" (by unfold alKeysNodup; decide) (by unfold alKeysNodup; decide)
    (by decide)

end TanaEdge

